import Mathlib

set_option autoImplicit false

/-!
Shallow embedding of the rust-snack synchronization library
(spin lock, mutex, condvar, rwlock, Arc/Weak, blocking channel, oneshot
channel) and proofs about the embedded operations.

Modelling conventions:
- machine integers are `Nat` with an explicit `% 2 ^ w` where wraparound
  matters (`u32`, `usize`);
- each atomic read-modify-write step of a loop is driven by the value the
  atomic word holds at that access (an oracle list models concurrent
  interference between accesses);
- memory-ordering annotations from the source are recorded as data tags on
  the emitted events; the model itself is a sequential interleaving at
  operation granularity;
- `process::abort` and failed handle preconditions surface as `none`;
- stateful components (Arc/Weak, oneshot) are explicit state machines run
  over operation histories.
-/

namespace RustSnack

/-- Modulus of the `u32` machine type. -/
def u32Mod : Nat := 2 ^ 32

/-- Largest `u32` value, `u32::MAX`. -/
def u32Max : Nat := u32Mod - 1

/-- Modulus of the `usize` machine type (64-bit target). -/
def usizeMod : Nat := 2 ^ 64

/-- Largest `usize` value, `usize::MAX`. -/
def usizeMax : Nat := usizeMod - 1

/-- Memory-ordering annotation carried by the source's atomic operations. -/
inductive MemOrd where
  | relaxed
  | acquire
  | release
deriving DecidableEq, Repr

/-! ### Mutex (src/sync/src/mutex/mod.rs) -/

/-- Mutex state value: unlocked. -/
def MUTEX_UNLOCKED : Nat := 0

/-- Mutex state value: locked, no contention. -/
def MUTEX_LOCKED : Nat := 1

/-- Mutex state value: locked, other threads waiting. -/
def MUTEX_CONTENTION : Nat := 2

/-- Observable atomic and futex actions performed by the mutex code. -/
inductive MutexEvent where
  | casAcquire (expected desired observed : Nat) (success : Bool)
  | swapState (desired observed : Nat) (ord : MemOrd)
  | waitOn (expected : Nat)
  | wakeOne
deriving DecidableEq, Repr

/-- True on the events that are futex wait or wake calls. -/
def mutexEventIsWaitOrWake : MutexEvent → Bool
  | MutexEvent.waitOn _ => true
  | MutexEvent.wakeOne => true
  | _ => false

/-- The contended loop of `Mutex::lock`:
`while state.swap(MUTEX_CONTENTION, Acquire) != MUTEX_UNLOCKED { wait(&state, MUTEX_CONTENTION) }`.
The oracle lists the value the state word holds at each swap; `none` means
the oracle ran out (the loop did not terminate within the schedule). -/
def mutexLockLoop : List Nat → Option (List MutexEvent)
  | [] => none
  | v :: rest =>
    if v = MUTEX_UNLOCKED then
      some [MutexEvent.swapState MUTEX_CONTENTION v MemOrd.acquire]
    else
      (mutexLockLoop rest).map
        (fun tr =>
          MutexEvent.swapState MUTEX_CONTENTION v MemOrd.acquire ::
            MutexEvent.waitOn MUTEX_CONTENTION :: tr)

/-- `Mutex::lock`: one acquire compare-exchange UNLOCKED to LOCKED, then on
failure the contended swap/wait loop. The first oracle entry is the value
observed by the compare-exchange, the rest drive the loop swaps. -/
def mutexLock : List Nat → Option (List MutexEvent)
  | [] => none
  | v :: rest =>
    if v = MUTEX_UNLOCKED then
      some [MutexEvent.casAcquire MUTEX_UNLOCKED MUTEX_LOCKED v true]
    else
      (mutexLockLoop rest).map
        (fun tr => MutexEvent.casAcquire MUTEX_UNLOCKED MUTEX_LOCKED v false :: tr)

/-- `MutexGuard::drop`: swap the state to UNLOCKED with release ordering and
wake one thread exactly when the replaced value was MUTEX_CONTENTION.
The argument is the value the swap replaced; the result is the new state
value and the emitted events. -/
def mutexUnlock (observed : Nat) : Nat × List MutexEvent :=
  (MUTEX_UNLOCKED,
    MutexEvent.swapState MUTEX_UNLOCKED observed MemOrd.release ::
      (if observed = MUTEX_CONTENTION then [MutexEvent.wakeOne] else []))

/-- Spec-side description of the contended loop, written from the spec text:
each swap-to-CONTENDED that observes a value other than UNLOCKED is followed
by a wait on the word with expected value CONTENDED, and the loop ends right
after a swap observes UNLOCKED. -/
inductive MutexLockLoopSpec : List MutexEvent → Prop where
  | exit :
      MutexLockLoopSpec
        [MutexEvent.swapState MUTEX_CONTENTION MUTEX_UNLOCKED MemOrd.acquire]
  | spin (w : Nat) (hw : w ≠ MUTEX_UNLOCKED) (tr : List MutexEvent) :
      MutexLockLoopSpec tr →
      MutexLockLoopSpec
        (MutexEvent.swapState MUTEX_CONTENTION w MemOrd.acquire ::
          MutexEvent.waitOn MUTEX_CONTENTION :: tr)

/-- Spec-side description of a full `lock()` run, written from the spec text:
either the single acquire compare-exchange succeeds (fast path), or it fails
observing a non-UNLOCKED value and is followed by the contended loop. -/
inductive MutexLockSpec : List MutexEvent → Prop where
  | fastPath :
      MutexLockSpec
        [MutexEvent.casAcquire MUTEX_UNLOCKED MUTEX_LOCKED MUTEX_UNLOCKED true]
  | slowPath (v : Nat) (hv : v ≠ MUTEX_UNLOCKED) (tr : List MutexEvent) :
      MutexLockLoopSpec tr →
      MutexLockSpec
        (MutexEvent.casAcquire MUTEX_UNLOCKED MUTEX_LOCKED v false :: tr)

theorem mutexLockLoop_meets_loop_spec :
    ∀ (oracle : List Nat) (tr : List MutexEvent),
      mutexLockLoop oracle = some tr → MutexLockLoopSpec tr := by
  intro oracle
  induction oracle with
  | nil =>
    intro tr h
    simp [mutexLockLoop] at h
  | cons v rest ih =>
    intro tr h
    by_cases hv : v = MUTEX_UNLOCKED
    · subst hv
      simp [mutexLockLoop] at h
      exact h ▸ MutexLockLoopSpec.exit
    · simp [mutexLockLoop, hv] at h
      obtain ⟨tr2, h2, rfl⟩ := h
      exact MutexLockLoopSpec.spin v hv tr2 (ih tr2 h2)

/-- C2: `Mutex::lock` first attempts a single acquire compare-exchange from
UNLOCKED to LOCKED; on success it makes no wait or wake call; on failure it
repeatedly swaps the state to CONTENDED and, whenever the swap returns a
value other than UNLOCKED, waits on the word with expected value CONTENDED,
retrying until a swap observes UNLOCKED. -/
theorem mutex_lock_meets_spec (oracle : List Nat) (tr : List MutexEvent)
    (h : mutexLock oracle = some tr) :
    MutexLockSpec tr ∧
      (tr.head? =
          some (MutexEvent.casAcquire MUTEX_UNLOCKED MUTEX_LOCKED MUTEX_UNLOCKED true) →
        tr.all (fun e => !(mutexEventIsWaitOrWake e)) = true) := by
  match oracle with
  | [] => simp [mutexLock] at h
  | v :: rest =>
    by_cases hv : v = MUTEX_UNLOCKED
    · subst hv
      simp [mutexLock] at h
      subst h
      refine ⟨MutexLockSpec.fastPath, ?_⟩
      intro _
      simp [mutexEventIsWaitOrWake]
    · simp [mutexLock, hv] at h
      obtain ⟨tr2, h2, rfl⟩ := h
      refine ⟨MutexLockSpec.slowPath v hv tr2 (mutexLockLoop_meets_loop_spec rest tr2 h2), ?_⟩
      intro hhead
      simp at hhead

/-- Witness for C2 at the concrete oracle `[MUTEX_UNLOCKED]` (uncontended
fast path). -/
theorem mutex_lock_meets_spec_w :
    MutexLockSpec [MutexEvent.casAcquire MUTEX_UNLOCKED MUTEX_LOCKED MUTEX_UNLOCKED true] ∧
      (List.head? [MutexEvent.casAcquire MUTEX_UNLOCKED MUTEX_LOCKED MUTEX_UNLOCKED true] =
          some (MutexEvent.casAcquire MUTEX_UNLOCKED MUTEX_LOCKED MUTEX_UNLOCKED true) →
        List.all [MutexEvent.casAcquire MUTEX_UNLOCKED MUTEX_LOCKED MUTEX_UNLOCKED true]
          (fun e => !(mutexEventIsWaitOrWake e)) = true) :=
  mutex_lock_meets_spec [MUTEX_UNLOCKED]
    [MutexEvent.casAcquire MUTEX_UNLOCKED MUTEX_LOCKED MUTEX_UNLOCKED true] (by decide)

/-- C3: releasing a `MutexGuard` swaps the state to UNLOCKED with release
ordering and calls wake-one if and only if the replaced value was
CONTENDED; in particular the trace is just the swap when the replaced value
was anything else, e.g. LOCKED. -/
theorem mutex_guard_drop_wake (observed : Nat) :
    (mutexUnlock observed).fst = MUTEX_UNLOCKED ∧
      (mutexUnlock observed).snd.head? =
        some (MutexEvent.swapState MUTEX_UNLOCKED observed MemOrd.release) ∧
      (MutexEvent.wakeOne ∈ (mutexUnlock observed).snd ↔ observed = MUTEX_CONTENTION) ∧
      (¬ observed = MUTEX_CONTENTION ↔
        (mutexUnlock observed).snd =
          [MutexEvent.swapState MUTEX_UNLOCKED observed MemOrd.release]) := by
  by_cases hobs : observed = MUTEX_CONTENTION <;>
    simp [mutexUnlock, hobs]

/-! ### Condvar (src/sync/src/condvar/mod.rs) -/

/-- Observable actions performed by the condvar notify paths. -/
inductive CondvarEvent where
  | bumpCounter (ord : MemOrd)
  | wakeOne
  | wakeAll
deriving DecidableEq, Repr

/-- `Condvar::notify_one`: the whole body is guarded by
`num_waiters.load(Relaxed) > 0`; inside, the generation counter is bumped
(relaxed fetch-add) and one thread is woken. Arguments are the observed
waiter count and the current counter; result is the new counter and the
emitted events. -/
def condvarNotifyOne (numWaiters counter : Nat) : Nat × List CondvarEvent :=
  if 0 < numWaiters then
    (counter + 1, [CondvarEvent.bumpCounter MemOrd.relaxed, CondvarEvent.wakeOne])
  else
    (counter, [])

/-- `Condvar::notify_all`: same guard as `notify_one`, waking all threads. -/
def condvarNotifyAll (numWaiters counter : Nat) : Nat × List CondvarEvent :=
  if 0 < numWaiters then
    (counter + 1, [CondvarEvent.bumpCounter MemOrd.relaxed, CondvarEvent.wakeAll])
  else
    (counter, [])

/-- C6 as stated: the notify operations increment the generation counter
(unconditionally) and skip only the wake call when the waiter count is
zero. -/
def condvarClaimAlwaysBumps : Prop :=
  ∀ numWaiters counter : Nat,
    (condvarNotifyOne numWaiters counter).fst = counter + 1 ∧
      (condvarNotifyAll numWaiters counter).fst = counter + 1

/-- C6 counterexample: with waiter count 0 and counter 0, `notify_one`
leaves the counter at 0, so the claimed unconditional increment is false. -/
theorem condvar_claim_always_bumps_false : ¬ condvarClaimAlwaysBumps := by
  intro h
  have h0 := (h 0 0).1
  simp [condvarNotifyOne] at h0

/-- C6 amended: when the waiter count is zero, `notify_one`/`notify_all`
skip the counter increment and the wake call entirely; otherwise they
increment the generation counter and wake one (respectively all) parked
threads. -/
theorem condvar_notify_skip_when_no_waiters (numWaiters counter : Nat) :
    (condvarNotifyOne numWaiters counter =
        (counter + 1, [CondvarEvent.bumpCounter MemOrd.relaxed, CondvarEvent.wakeOne]) ↔
      0 < numWaiters) ∧
    (condvarNotifyOne numWaiters counter = (counter, []) ↔ numWaiters = 0) ∧
    (condvarNotifyAll numWaiters counter =
        (counter + 1, [CondvarEvent.bumpCounter MemOrd.relaxed, CondvarEvent.wakeAll]) ↔
      0 < numWaiters) ∧
    (condvarNotifyAll numWaiters counter = (counter, []) ↔ numWaiters = 0) := by
  rcases Nat.eq_zero_or_pos numWaiters with hw | hw
  · simp [condvarNotifyOne, condvarNotifyAll, hw]
  · simp [condvarNotifyOne, condvarNotifyAll, hw, hw.ne']

/-! ### Blocking channel (src/sync/src/channel/chan.rs, mod.rs) -/

/-- `Channel::send` under the queue lock: push the value at the tail of the
`VecDeque` and notify one waiter exactly when the queue length after the
push is 1. Result: the new queue and whether `notify_one` was called. -/
def channelSend (queue : List Nat) (value : Nat) : List Nat × Bool :=
  let pushed := queue ++ [value]
  (pushed, pushed.length == 1)

/-- C8: `Channel::send` appends the value at the tail and calls
`notify_one` if and only if the queue was empty immediately before the
insertion (equivalently, the queue length after the push is 1). -/
theorem channel_send_notify_on_empty (queue : List Nat) (value : Nat) :
    (channelSend queue value).fst = queue ++ [value] ∧
      ((channelSend queue value).snd = true ↔ queue = []) ∧
      ((channelSend queue value).snd = true ↔
        (channelSend queue value).fst.length = 1) := by
  refine ⟨rfl, ?_, ?_⟩ <;>
    simp [channelSend]

/-! ### Arc / Weak, per-operation functions (src/sync/src/arc/mod.rs) -/

/-- Abort threshold used by the clone paths, `usize::MAX / 2`. -/
def arcHalfMax : Nat := usizeMax / 2

/-- `Clone for Arc<T>`: relaxed fetch-add of the strong count; the process
aborts (`none`) when the pre-increment value exceeds `usize::MAX / 2`,
otherwise the new counter value is returned. -/
def arcCloneStrong (strong : Nat) : Option Nat :=
  let observed := strong
  let bumped := (strong + 1) % usizeMod
  if observed > arcHalfMax then none else some bumped

/-- `Clone for Weak<T>`: identical overflow-guarded relaxed fetch-add on the
weak count. -/
def weakCloneWeak (weak : Nat) : Option Nat :=
  let observed := weak
  let bumped := (weak + 1) % usizeMod
  if observed > arcHalfMax then none else some bumped

/-- C9: `Arc::clone` and `Weak::clone` increment their respective count and
abort the process (modelled as `none`, never a returned error value) exactly
when the pre-increment count exceeds `usize::MAX / 2`; otherwise the count
becomes its successor and a new handle is returned. -/
theorem arc_weak_clone_abort_threshold (n : Nat) :
    (arcCloneStrong n = none ↔ arcHalfMax < n) ∧
      (weakCloneWeak n = none ↔ arcHalfMax < n) ∧
      (¬ arcHalfMax < n ↔ arcCloneStrong n = some (n + 1)) ∧
      (¬ arcHalfMax < n ↔ weakCloneWeak n = some (n + 1)) := by
  by_cases hn : arcHalfMax < n
  · simp [arcCloneStrong, weakCloneWeak, hn]
  · have hlt : n + 1 < usizeMod := by
      simp [arcHalfMax, usizeMax, usizeMod] at hn ⊢
      omega
    simp [arcCloneStrong, weakCloneWeak, hn, Nat.mod_eq_of_lt hlt]

/-- Observable atomic actions performed by `Arc::get_mut`. -/
inductive ArcEvent where
  | casWeak (expected desired observed : Nat) (success : Bool) (ord : MemOrd)
  | loadStrong (observed : Nat) (ord : MemOrd)
  | storeWeak (desired : Nat) (ord : MemOrd)
  | acquireFence
deriving DecidableEq, Repr

/-- `Arc::get_mut`: acquire compare-exchange of the weak count from 1 to the
`usize::MAX` sentinel; on failure return `none` at once. On success, load
the strong count (relaxed), release-store the weak count back to 1, and
return access (`some ()`, after an acquire fence) exactly when the strong
count was 1. Arguments are the counter values at entry; the result carries
the access option, the final (strong, weak) counters, and the event trace. -/
def arcGetMut (strong weak : Nat) : Option Unit × (Nat × Nat) × List ArcEvent :=
  if weak = 1 then
    if strong = 1 then
      (some (), (strong, 1),
        [ArcEvent.casWeak 1 usizeMax weak true MemOrd.acquire,
          ArcEvent.loadStrong strong MemOrd.relaxed,
          ArcEvent.storeWeak 1 MemOrd.release,
          ArcEvent.acquireFence])
    else
      (none, (strong, 1),
        [ArcEvent.casWeak 1 usizeMax weak true MemOrd.acquire,
          ArcEvent.loadStrong strong MemOrd.relaxed,
          ArcEvent.storeWeak 1 MemOrd.release])
  else
    (none, (strong, weak),
      [ArcEvent.casWeak 1 usizeMax weak false MemOrd.acquire])

/-- C5: `Arc::get_mut` grants access if and only if the weak count and the
strong count are both exactly 1; it starts with the acquire compare-exchange
of weak from 1 to the `usize::MAX` sentinel (succeeding exactly when weak
is 1), restores the weak count to 1 exactly when the sentinel was taken, and
in every case leaves the counters as it found them and yields an absent
value rather than a failure when either check fails. -/
theorem arc_get_mut_iff_unique (strong weak : Nat) :
    ((arcGetMut strong weak).fst = some () ↔ weak = 1 ∧ strong = 1) ∧
      (arcGetMut strong weak).snd.fst = (strong, weak) ∧
      (arcGetMut strong weak).snd.snd.head? =
        some (ArcEvent.casWeak 1 usizeMax weak (weak == 1) MemOrd.acquire) ∧
      (ArcEvent.storeWeak 1 MemOrd.release ∈ (arcGetMut strong weak).snd.snd ↔
        weak = 1) := by
  by_cases hw : weak = 1
  · by_cases hs : strong = 1 <;>
      simp [arcGetMut, hw, hs]
  · simp [arcGetMut, hw]

/-! ### RwLock (src/sync/src/rwlock/mod.rs) -/

/-- Write-locked sentinel value of the RwLock state word, `u32::MAX`. -/
def RWLOCK_WLOCKED : Nat := u32Max

/-- Outcome of one iteration of the `RwLock::read` loop for an observed
state value. -/
inductive RwReadStep where
  | waitOnState (observed : Nat)
  | assertPanic
  | casIncrement (desired : Nat) (ord : MemOrd)
deriving DecidableEq, Repr

/-- One iteration of the `RwLock::read` loop at observed state `x`: if `x`
is odd (writer pending) the thread waits on the state word; if `x` is even
the source asserts `x != u32::MAX - 2` (panic on failure) and otherwise
attempts the acquire compare-exchange from `x` to `x + 2` (with `u32`
wraparound made explicit). -/
def rwlockReadIter (x : Nat) : RwReadStep :=
  if x % 2 = 1 then
    RwReadStep.waitOnState x
  else if x = u32Max - 2 then
    RwReadStep.assertPanic
  else
    RwReadStep.casIncrement ((x + 2) % u32Mod) MemOrd.acquire

/-- C7 (code bug): the overflow assertion in `RwLock::read` can never fire,
because `u32::MAX - 2` is odd while the assertion sits in the even
(no-writer-pending) branch; in particular at the maximal even state
`u32::MAX - 1` the read path does not panic but compare-exchanges the state
to `(u32::MAX + 1) mod 2^32 = 0`, silently wrapping the reader count instead
of the fatal assertion the claim describes. -/
theorem rwlock_read_assert_never_fires (x : Nat) :
    rwlockReadIter x ≠ RwReadStep.assertPanic ∧
      rwlockReadIter (u32Max - 1) = RwReadStep.casIncrement 0 MemOrd.acquire := by
  constructor
  · unfold rwlockReadIter
    by_cases hodd : x % 2 = 1
    · simp [hodd]
    · have hx : x ≠ u32Max - 2 := by
        intro he
        rw [he] at hodd
        exact hodd (by decide)
      simp [hodd, hx]
  · have h1 : (u32Max - 1) % 2 = 1 ↔ False := by
      simp [u32Max, u32Mod]
    unfold rwlockReadIter
    norm_num [u32Max, u32Mod]

/-! ### Generic history runner -/

/-- Run a fallible step function over a list of operations; `none` means
some operation was invalid (precondition violated or process abort). -/
def runSteps {σ ω : Type} (f : σ → ω → Option σ) : σ → List ω → Option σ
  | s, [] => some s
  | s, op :: rest =>
    match f s op with
    | none => none
    | some t => runSteps f t rest

theorem runSteps_preserves {σ ω : Type} (f : σ → ω → Option σ) (Inv : σ → Prop)
    (hf : ∀ s op t, Inv s → f s op = some t → Inv t) :
    ∀ (ops : List ω) (s t : σ), Inv s → runSteps f s ops = some t → Inv t := by
  intro ops
  induction ops with
  | nil =>
    intro s t hs h
    simp [runSteps] at h
    exact h ▸ hs
  | cons op rest ih =>
    intro s t hs h
    unfold runSteps at h
    match hstep : f s op with
    | none => rw [hstep] at h; simp at h
    | some u =>
      rw [hstep] at h
      exact ih u t (hf s op u hs hstep) h

/-! ### Arc / Weak operation histories (src/sync/src/arc/mod.rs) -/

/-- State of one `ArcInner` cell together with bookkeeping: the two atomic
counters, the number of live `Arc` and `Weak` handles, and how many times
the payload destructor ran and the backing memory was freed. -/
structure ArcState where
  strong : Nat
  weak : Nat
  strongHandles : Nat
  weakHandles : Nat
  destroys : Nat
  frees : Nat
deriving DecidableEq, Repr

/-- State right after `Arc::new`: strong = 1, weak = 1 (the implicit unit
shared by all strong handles), one live strong handle. -/
def arcInit : ArcState := ⟨1, 1, 1, 0, 0, 0⟩

/-- The Arc/Weak operations a history may perform after `Arc::new`. -/
inductive ArcOp where
  | cloneStrong
  | cloneWeak
  | dropStrong
  | dropWeak
  | downgrade
  | upgrade
  | getMutOp
deriving DecidableEq, Repr

/-- One Arc/Weak operation, at atomic-operation granularity collapsed to the
net effect visible between operations. `none` marks an invalid history step
(an operation on a handle that does not exist) or a process abort from the
clone overflow guard.

Sources: `Clone for Arc`/`Clone for Weak` (relaxed fetch-add plus abort when
the pre-increment value exceeds `usize::MAX / 2`); `Drop for Arc` (release
fetch-sub; when the replaced value was 1: acquire fence, destroy the payload
in place, then drop the implicit weak unit); `Drop for Weak` (release
fetch-sub; when the replaced value was 1: acquire fence, free the cell);
`downgrade` (CAS retry loop incrementing weak, the `usize::MAX` sentinel is
transient and never observable between operations); `upgrade` (CAS retry
loop incrementing strong only while strong > 0, returning no handle at 0);
`get_mut` (restores the weak count before returning, no net counter
effect). -/
def arcStep (s : ArcState) (op : ArcOp) : Option ArcState :=
  match op with
  | ArcOp.cloneStrong =>
    if s.strongHandles = 0 then none
    else if s.strong > arcHalfMax then none
    else some { s with strong := s.strong + 1, strongHandles := s.strongHandles + 1 }
  | ArcOp.cloneWeak =>
    if s.weakHandles = 0 then none
    else if s.weak > arcHalfMax then none
    else some { s with weak := s.weak + 1, weakHandles := s.weakHandles + 1 }
  | ArcOp.downgrade =>
    if s.strongHandles = 0 then none
    else some { s with weak := s.weak + 1, weakHandles := s.weakHandles + 1 }
  | ArcOp.upgrade =>
    if s.weakHandles = 0 then none
    else if s.strong = 0 then some s
    else some { s with strong := s.strong + 1, strongHandles := s.strongHandles + 1 }
  | ArcOp.getMutOp =>
    if s.strongHandles = 0 then none
    else some s
  | ArcOp.dropStrong =>
    if s.strongHandles = 0 then none
    else if s.strong = 1 then
      if s.weak = 1 then
        some { s with strong := 0, strongHandles := s.strongHandles - 1,
                      destroys := s.destroys + 1, weak := 0, frees := s.frees + 1 }
      else
        some { s with strong := 0, strongHandles := s.strongHandles - 1,
                      destroys := s.destroys + 1, weak := s.weak - 1 }
    else
      some { s with strong := s.strong - 1, strongHandles := s.strongHandles - 1 }
  | ArcOp.dropWeak =>
    if s.weakHandles = 0 then none
    else if s.weak = 1 then
      some { s with weak := 0, weakHandles := s.weakHandles - 1, frees := s.frees + 1 }
    else
      some { s with weak := s.weak - 1, weakHandles := s.weakHandles - 1 }

/-- Run an Arc/Weak history from the state produced by `Arc::new`. -/
def runArc (ops : List ArcOp) : Option ArcState :=
  runSteps arcStep arcInit ops

/-- Inductive invariant of the Arc/Weak cell: the strong counter counts the
live strong handles; the weak counter counts the live weak handles plus the
implicit unit that lives until the payload is destroyed; the payload is
destroyed exactly when the last strong handle is gone; the memory is freed
exactly when the weak counter hits zero. -/
def ArcInv (s : ArcState) : Prop :=
  s.strong = s.strongHandles ∧
    ((s.destroys = 0 ∧ s.weak = s.weakHandles + 1) ∨
      (s.destroys = 1 ∧ s.weak = s.weakHandles)) ∧
    (s.destroys = 0 ↔ 0 < s.strongHandles) ∧
    ((s.frees = 0 ∧ 0 < s.weak) ∨ (s.frees = 1 ∧ s.weak = 0))

theorem arcStep_preserves_inv (s : ArcState) (op : ArcOp) (t : ArcState)
    (hs : ArcInv s) (h : arcStep s op = some t) : ArcInv t := by
  obtain ⟨strong, weak, sh, wh, des, fre⟩ := s
  obtain ⟨h1, h2, h3, h4⟩ := hs
  simp only [ArcInv] at *
  cases op <;>
    simp only [arcStep] at h <;>
    split at h <;> (try split at h) <;> (try split at h) <;>
    (try exact Option.noConfusion h) <;>
    (obtain rfl := Option.some.inj h) <;>
    dsimp only <;>
    omega

/-- C1: for every history of Arc/Weak operations starting from `Arc::new`
that runs without an invalid step (and without the abort guard tripping),
the payload destructor has run exactly once precisely when the strong count
is 0, the backing memory has been freed exactly once precisely when the weak
count is 0, and a free never precedes the payload destruction. -/
theorem arc_destroy_free_exactly_once (ops : List ArcOp) (s : ArcState)
    (h : runArc ops = some s) :
    s.destroys = (if s.strong = 0 then 1 else 0) ∧
      s.frees = (if s.weak = 0 then 1 else 0) ∧
      s.frees ≤ s.destroys := by
  have hinv : ArcInv s := by
    refine runSteps_preserves arcStep ArcInv arcStep_preserves_inv ops arcInit s ?_ h
    simp [ArcInv, arcInit]
  obtain ⟨h1, h2, h3, h4⟩ := hinv
  by_cases hstr : s.strong = 0 <;> by_cases hwk : s.weak = 0 <;>
    simp [hstr, hwk] <;> omega

/-- Witness for C1 at the concrete history: clone a second strong handle,
downgrade to a weak handle, drop both strong handles, drop the weak
handle. -/
theorem arc_destroy_free_exactly_once_w :
    (⟨0, 0, 0, 0, 1, 1⟩ : ArcState).destroys =
        (if (⟨0, 0, 0, 0, 1, 1⟩ : ArcState).strong = 0 then 1 else 0) ∧
      (⟨0, 0, 0, 0, 1, 1⟩ : ArcState).frees =
        (if (⟨0, 0, 0, 0, 1, 1⟩ : ArcState).weak = 0 then 1 else 0) ∧
      (⟨0, 0, 0, 0, 1, 1⟩ : ArcState).frees ≤ (⟨0, 0, 0, 0, 1, 1⟩ : ArcState).destroys :=
  arc_destroy_free_exactly_once
    [ArcOp.cloneStrong, ArcOp.downgrade, ArcOp.dropStrong, ArcOp.dropStrong, ArcOp.dropWeak]
    ⟨0, 0, 0, 0, 1, 1⟩ (by decide)

/-! ### Oneshot channel (src/sync/src/channel/oneshot.rs) -/

/-- State of one oneshot `Channel` cell plus bookkeeping: whether the
`Sender` and the `Receiver` are still unconsumed, the ready flag, the slot
content (`none` = still uninitialized), how many slot writes happened, how
many slot reads happened with the flag true (`goodReads`) and with the flag
still false (`badReads`), and the value the receive returned
(`received = some c` after a receive that observed slot content `c`). -/
structure OneshotState where
  senderAlive : Bool
  receiverAlive : Bool
  ready : Bool
  slot : Option Nat
  writes : Nat
  goodReads : Nat
  badReads : Nat
  received : Option (Option Nat)
deriving DecidableEq, Repr

/-- State produced by `channel()`: uninitialized slot, flag false, both
handles live. -/
def oneshotInit : OneshotState := ⟨true, true, false, none, 0, 0, 0, none⟩

/-- The oneshot operations a history may perform after `channel()`. -/
inductive OneshotOp where
  | send (v : Nat)
  | receive
  | isReadyOp
deriving DecidableEq, Repr

/-- One oneshot operation. `Sender::send` consumes the sender, writes the
message into the slot, then sets the ready flag (release store).
`Receiver::receive` consumes the receiver and reads the slot with no check
of the flag whatsoever (`assume_init_read`); the model records whether the
flag was true at the read. `Receiver::is_ready` is a relaxed load with no
state change. `none` marks reuse of a consumed handle, which the host
type system rules out. -/
def oneshotStep (s : OneshotState) (op : OneshotOp) : Option OneshotState :=
  match op with
  | OneshotOp.send v =>
    if s.senderAlive then
      some { s with senderAlive := false, slot := some v, ready := true,
                    writes := s.writes + 1 }
    else none
  | OneshotOp.receive =>
    if s.receiverAlive then
      if s.ready then
        some { s with receiverAlive := false, goodReads := s.goodReads + 1,
                      received := some s.slot }
      else
        some { s with receiverAlive := false, badReads := s.badReads + 1,
                      received := some s.slot }
    else none
  | OneshotOp.isReadyOp => some s

/-- Run a oneshot history from the state produced by `channel()`. -/
def runOneshot (ops : List OneshotOp) : Option OneshotState :=
  runSteps oneshotStep oneshotInit ops

/-- C4 as stated: in every history that the types allow, the slot is read
only after the ready flag has been set true by send, i.e. no read ever
happens with the flag still false. -/
def oneshotClaimReadsAfterFlag : Prop :=
  ∀ (ops : List OneshotOp) (s : OneshotState),
    runOneshot ops = some s → s.badReads = 0

/-- C4 counterexample: the one-operation history `[receive]` is permitted
by the types (the receiver is live), and its read happens with the ready
flag still false, so the claim as stated is false. -/
theorem oneshot_reads_after_flag_false : ¬ oneshotClaimReadsAfterFlag := by
  intro hclaim
  have h := hclaim [OneshotOp.receive] ⟨true, false, false, none, 0, 0, 1, some none⟩
    (by decide)
  simp at h

/-- Inductive invariant of the oneshot cell: the sender being consumed is
equivalent to the unique write having happened and the flag being set, the
receiver being consumed is equivalent to the unique read having happened,
and a flag-true read can only exist once the flag is set. -/
def OneshotInv (s : OneshotState) : Prop :=
  (s.senderAlive = true → s.writes = 0 ∧ s.ready = false ∧ s.slot = none) ∧
    (s.senderAlive = false → s.writes = 1 ∧ s.ready = true) ∧
    (s.receiverAlive = true → s.goodReads = 0 ∧ s.badReads = 0) ∧
    (s.receiverAlive = false → s.goodReads + s.badReads = 1) ∧
    (0 < s.goodReads → s.ready = true)

theorem oneshotStep_preserves_inv (s : OneshotState) (op : OneshotOp)
    (t : OneshotState) (hs : OneshotInv s) (h : oneshotStep s op = some t) :
    OneshotInv t := by
  obtain ⟨sa, ra, rdy, slot, w, g, b, rcv⟩ := s
  obtain ⟨h1, h2, h3, h4, h5⟩ := hs
  simp only [OneshotInv] at *
  cases op <;>
    simp only [oneshotStep] at h <;>
    (try split at h) <;> (try split at h) <;>
    (try exact Option.noConfusion h) <;>
    (obtain rfl := Option.some.inj h) <;>
    simp_all

/-- C4 amended: the slot is written at most once and read at most once (the
handles are consumed); the flag is true exactly when the unique send has
happened; and any read that observes the flag true therefore happens after
the unique send that set it. A receive invoked before the send reads the
slot with the flag still false (the caller-contract violation the source
documents), as the counterexample shows. -/
theorem oneshot_write_read_once (ops : List OneshotOp) (s : OneshotState)
    (h : runOneshot ops = some s) :
    s.writes ≤ 1 ∧ s.goodReads + s.badReads ≤ 1 ∧
      (s.ready = true ↔ s.writes = 1) ∧
      (0 < s.goodReads → s.writes = 1) := by
  have hinv : OneshotInv s := by
    refine runSteps_preserves oneshotStep OneshotInv oneshotStep_preserves_inv ops
      oneshotInit s ?_ h
    simp [OneshotInv, oneshotInit]
  obtain ⟨h1, h2, h3, h4, h5⟩ := hinv
  cases hsa : s.senderAlive <;> cases hra : s.receiverAlive <;>
    simp_all

/-- Witness for C4 (amended) at the history `[send 5, receive]`. -/
theorem oneshot_write_read_once_w :
    (⟨false, false, true, some 5, 1, 1, 0, some (some 5)⟩ : OneshotState).writes ≤ 1 ∧
      (⟨false, false, true, some 5, 1, 1, 0, some (some 5)⟩ : OneshotState).goodReads +
          (⟨false, false, true, some 5, 1, 1, 0, some (some 5)⟩ : OneshotState).badReads ≤ 1 ∧
      ((⟨false, false, true, some 5, 1, 1, 0, some (some 5)⟩ : OneshotState).ready = true ↔
        (⟨false, false, true, some 5, 1, 1, 0, some (some 5)⟩ : OneshotState).writes = 1) ∧
      (0 < (⟨false, false, true, some 5, 1, 1, 0, some (some 5)⟩ : OneshotState).goodReads →
        (⟨false, false, true, some 5, 1, 1, 0, some (some 5)⟩ : OneshotState).writes = 1) :=
  oneshot_write_read_once [OneshotOp.send 5, OneshotOp.receive]
    ⟨false, false, true, some 5, 1, 1, 0, some (some 5)⟩ (by decide)

/-- Invariant of the cell after `send v` has happened: the slot holds `v`
forever, the flag is and stays true, the write count is pinned at 1, every
read is a flag-true read, and the unique read (once the receiver is
consumed) returned exactly `v`. -/
def OneshotSentInv (v : Nat) (s : OneshotState) : Prop :=
  s.senderAlive = false ∧ s.slot = some v ∧ s.ready = true ∧ s.writes = 1 ∧
    s.badReads = 0 ∧
    (s.receiverAlive = true → s.goodReads = 0 ∧ s.received = none) ∧
    (s.receiverAlive = false → s.goodReads = 1 ∧ s.received = some (some v))

theorem oneshotStep_preserves_sent_inv (v : Nat) (s : OneshotState) (op : OneshotOp)
    (t : OneshotState) (hs : OneshotSentInv v s) (h : oneshotStep s op = some t) :
    OneshotSentInv v t := by
  obtain ⟨sa, ra, rdy, slot, w, g, b, rcv⟩ := s
  obtain ⟨h1, h2, h3, h4, h5, h6, h7⟩ := hs
  simp only [OneshotSentInv] at *
  cases op <;>
    simp only [oneshotStep] at h <;>
    (try split at h) <;>
    (try exact Option.noConfusion h) <;>
    (obtain rfl := Option.some.inj h) <;>
    simp_all

/-- C10: after `send v` the slot holds exactly `v` and the ready flag is
true (published by the release store), and any subsequent `receive` in the
history is the unique read, observes the flag true, and returns exactly
`v`. -/
theorem oneshot_send_receive_value (v : Nat) (ops : List OneshotOp)
    (s : OneshotState) (h : runOneshot (OneshotOp.send v :: ops) = some s) :
    s.slot = some v ∧ s.ready = true ∧ s.writes = 1 ∧ s.badReads = 0 ∧
      s.goodReads ≤ 1 ∧
      (s.received = none ∨ (s.received = some (some v) ∧ s.goodReads = 1)) := by
  have hstep : oneshotStep oneshotInit (OneshotOp.send v) =
      some ⟨false, true, true, some v, 1, 0, 0, none⟩ := by
    simp [oneshotStep, oneshotInit]
  have hrun : runSteps oneshotStep (⟨false, true, true, some v, 1, 0, 0, none⟩ :
      OneshotState) ops = some s := by
    unfold runOneshot at h
    rw [runSteps, hstep] at h
    exact h
  have hinv : OneshotSentInv v s := by
    refine runSteps_preserves oneshotStep (OneshotSentInv v)
      (oneshotStep_preserves_sent_inv v) ops _ s ?_ hrun
    simp [OneshotSentInv]
  obtain ⟨h1, h2, h3, h4, h5, h6, h7⟩ := hinv
  cases hra : s.receiverAlive <;> simp_all

/-- Witness for C10 at `v = 42` with the continuation `[receive]`. -/
theorem oneshot_send_receive_value_w :
    (⟨false, false, true, some 42, 1, 1, 0, some (some 42)⟩ : OneshotState).slot = some 42 ∧
      (⟨false, false, true, some 42, 1, 1, 0, some (some 42)⟩ : OneshotState).ready = true ∧
      (⟨false, false, true, some 42, 1, 1, 0, some (some 42)⟩ : OneshotState).writes = 1 ∧
      (⟨false, false, true, some 42, 1, 1, 0, some (some 42)⟩ : OneshotState).badReads = 0 ∧
      (⟨false, false, true, some 42, 1, 1, 0, some (some 42)⟩ : OneshotState).goodReads ≤ 1 ∧
      ((⟨false, false, true, some 42, 1, 1, 0, some (some 42)⟩ : OneshotState).received = none ∨
        ((⟨false, false, true, some 42, 1, 1, 0, some (some 42)⟩ : OneshotState).received =
            some (some 42) ∧
          (⟨false, false, true, some 42, 1, 1, 0, some (some 42)⟩ : OneshotState).goodReads = 1)) :=
  oneshot_send_receive_value 42 [OneshotOp.receive]
    ⟨false, false, true, some 42, 1, 1, 0, some (some 42)⟩ (by decide)

end RustSnack
